import Mathlib

set_option maxHeartbeats 1000000

/-! Verification of joshdk/drone-github-comment against its design document.

The development shallowly embeds the program logic of `main.go` (and the
comment template embedded at build time) as executable Lean definitions:
pure helpers become Lean functions, the `mainCmd` control flow becomes a
pure function from an environment (the `DRONE_*`/`PLUGIN_*` variables) and
an oracle describing the remote collaborators (DroneCI and GitHub API
results) to a run outcome consisting of the process result, the ordered
list of attempted remote calls, and the final state of the pull request's
comment list. -/

/-! ## Go string primitives -/

/-- Character class of Go's `unicode.IsSpace` restricted to the Latin-1
range (space, tab, newline, vertical tab, form feed, carriage return,
NEL, NBSP). Space code points above U+00FF are not modelled; none occur
in any string this development evaluates. -/
def goIsSpace (c : Char) : Bool :=
  c = ' ' || c = '\t' || c = '\n' || c = '\x0b' || c = '\x0c' || c = '\r' || c = '\x85' || c = '\xa0'

/-- Embedding of `strings.TrimSpace`: remove leading and trailing whitespace. -/
def goTrimSpace (s : String) : String :=
  String.mk (((s.data.dropWhile goIsSpace).reverse.dropWhile goIsSpace).reverse)

/-- Embedding of `strings.TrimRight(s, "\n")`: remove every trailing newline
character (main.go line 339). -/
def trimTrailingNewlines (s : String) : String :=
  String.mk ((s.data.reverse.dropWhile (fun c => c = '\n')).reverse)

/-- Embedding of `strings.HasPrefix(s, "+")` (main.go line 341): true exactly
when the first character of `s` is `+`. -/
def startsWithPlus (s : String) : Bool :=
  match s.data with
  | '+' :: _ => true
  | _ => false

/-- One scanned line: `bufio.ScanLines` strips a single trailing carriage
return from each line. The accumulator holds the line's characters in
reverse order. -/
def lineOfRev (acc : List Char) : String :=
  match acc with
  | '\r' :: rest => String.mk rest.reverse
  | _ => String.mk acc.reverse

/-- Worker for `goScanLines`; first argument is the remaining input, second
the (reversed) characters of the current line. -/
def goScanLinesAux : List Char → List Char → List String
  | [], [] => []
  | [], acc => [lineOfRev acc]
  | c :: cs, acc =>
    if c = '\n' then lineOfRev acc :: goScanLinesAux cs []
    else goScanLinesAux cs (c :: acc)

/-- Embedding of a `bufio.Scanner` with the default `ScanLines` split
function (main.go line 393): split on `'\n'`, strip one trailing `'\r'`
per line, no empty final token after a terminating newline. -/
def goScanLines (s : String) : List String :=
  goScanLinesAux s.data []

/-- Numeric value of a list of decimal digits. -/
def digitsToNat (ds : List Char) : Nat :=
  ds.foldl (fun acc c => acc * 10 + (c.toNat - 48)) 0

/-- Embedding of `strconv.Atoi`: optional sign followed by at least one
decimal digit; anything else is a parse error (`none`). The 64-bit range
check of the Go implementation is not modelled; no claim depends on it. -/
def goAtoi (s : String) : Option Int :=
  match s.data with
  | [] => none
  | '+' :: ds =>
    if ds ≠ [] ∧ ds.all Char.isDigit then some (digitsToNat ds) else none
  | '-' :: ds =>
    if ds ≠ [] ∧ ds.all Char.isDigit then some (-(digitsToNat ds : Int)) else none
  | ds =>
    if ds.all Char.isDigit then some (digitsToNat ds) else none

/-- Embedding of `strconv.ParseBool`: accepts exactly the listed literals. -/
def goParseBool (s : String) : Option Bool :=
  if s = "1" ∨ s = "t" ∨ s = "T" ∨ s = "true" ∨ s = "TRUE" ∨ s = "True" then some true
  else if s = "0" ∨ s = "f" ∨ s = "F" ∨ s = "false" ∨ s = "FALSE" ∨ s = "False" then some false
  else none

/-! ## Markdown metadata extraction (main.go lines 59-62 and 387-419)

The regex is `^\[//\]: # \(([^=]+)=(.*)\)`, matched per line with
`FindStringSubmatch`.  Because `^` anchors at the line start, `[^=]+` is
greedy over non-`=` characters and `(.*)\)` backtracks to the last `)`,
a line matches exactly when it starts with the literal `[//]: # (`, at
least one non-`=` character follows, then a `=`, and a `)` occurs
somewhere after that `=`.  The key is everything strictly between the
`(` and the first `=`; the value is everything strictly between the
first `=` and the last `)`. -/

/-- Consume the expected literal characters from the front of a list;
`none` when the list does not start with them. -/
def dropExpected : List Char → List Char → Option (List Char)
  | [], cs => some cs
  | _ :: _, [] => none
  | p :: ps, c :: cs => if c = p then dropExpected ps cs else none

/-- Split at the first `'='`: returns the characters before it (all
non-`'='`) and the characters after it. -/
def splitFirstEq : List Char → Option (List Char × List Char)
  | [] => none
  | c :: cs =>
    if c = '=' then some ([], cs)
    else
      match splitFirstEq cs with
      | none => none
      | some (k, rest) => some (c :: k, rest)

/-- Keep the characters strictly before the last `')'`; `none` when no
`')'` occurs. -/
def dropAfterLastParen (cs : List Char) : Option (List Char) :=
  match cs.reverse.dropWhile (fun c => c ≠ ')') with
  | [] => none
  | _ :: rest => some rest.reverse

/-- Embedding of `regexMarkdownMetadata.FindStringSubmatch` on one line
(main.go line 62): `some (key, value)` exactly when the line matches
`^\[//\]: # \(([^=]+)=(.*)\)`. -/
def matchMarkdownMetadata (line : String) : Option (String × String) :=
  match dropExpected "[//]: # (".data line.data with
  | none => none
  | some rest =>
    match splitFirstEq rest with
    | none => none
    | some (key, afterEq) =>
      if key.isEmpty then none
      else
        match dropAfterLastParen afterEq with
        | none => none
        | some val => some (String.mk key, String.mk val)

/-- Scanning loop of `hasMarkdownLabels` (main.go lines 393-406).  The Go
`map[string]string` with overwriting insertion is embedded as an
association list onto which each new pair is prepended and which is read
through `lookupFirst`, so that the last inserted binding for a key wins. -/
def extractLoop : List String → List (String × String) → List (String × String)
  | [], extracted => extracted
  | line :: rest, extracted =>
    match matchMarkdownMetadata line with
    | some (key, val) => extractLoop rest ((goTrimSpace key, goTrimSpace val) :: extracted)
    | none => extractLoop rest extracted

/-- First binding of a key in an association list (the most recently
inserted one, given `extractLoop`'s prepending). -/
def lookupFirst : List (String × String) → String → Option String
  | [], _ => none
  | (k, v) :: rest, key => if k = key then some v else lookupFirst rest key

/-- Embedding of `hasMarkdownLabels` (main.go lines 387-419): scan the
comment line by line, collect trimmed key/value pairs from metadata
lines, and check that every given label is present with an identical
value. -/
def hasMarkdownLabels (comment : String) (labels : List (String × String)) : Bool :=
  let extracted := extractLoop (goScanLines comment) []
  labels.all (fun kv => lookupFirst extracted kv.1 = some kv.2)

/-- Declarative counterpart used to state C6: the trimmed pair recorded
from one line, when the line matches the metadata pattern. -/
def parsedLabelOfLine (line : String) : Option (String × String) :=
  (matchMarkdownMetadata line).map (fun kv => (goTrimSpace kv.1, goTrimSpace kv.2))

/-- Declarative counterpart used to state C6: all recorded pairs of a
comment body, in scan order. -/
def extractedPairs (comment : String) : List (String × String) :=
  (goScanLines comment).filterMap parsedLabelOfLine

/-- Declarative counterpart used to state C6: the recorded value of a key,
last occurrence winning. -/
def lastRecorded (comment : String) (key : String) : Option String :=
  ((extractedPairs comment).reverse.find? (fun kv => kv.1 = key)).map Prod.snd

/-! ## Build structure and the identifier resolver (main.go lines 421-448) -/

/-- One pipeline step, as the fields of `drone.Step` used by the program. -/
structure Step where
  name : String
  number : Int
  status : String
  deriving DecidableEq

/-- One pipeline stage, as the fields of `drone.Stage` used by the program. -/
structure Stage where
  name : String
  number : Int
  steps : List Step
  deriving DecidableEq

/-- One build, as the fields of `drone.Build` used by the program. -/
structure Build where
  stages : List Stage
  deriving DecidableEq

/-- Inner loop of `resolveBuildStageAndStep` (main.go lines 430-438): scan
the steps of the matched stage in order; return on the first name match. -/
def resolveSteps (stageNumber : Int) (stepName : String) : List Step → Int × Int × String × Bool
  | [] => (0, 0, "", false)
  | step :: rest =>
    if step.name ≠ stepName then resolveSteps stageNumber stepName rest
    else (stageNumber, step.number, step.status, true)

/-- Outer loop of `resolveBuildStageAndStep` (main.go lines 424-444): scan
stages in order; on the first name match, scan only that stage's steps
(the loop breaks after the matched stage, never falling through). -/
def resolveStages (stageName stepName : String) : List Stage → Int × Int × String × Bool
  | [] => (0, 0, "", false)
  | stage :: rest =>
    if stage.name ≠ stageName then resolveStages stageName stepName rest
    else resolveSteps stage.number stepName stage.steps

/-- Embedding of `resolveBuildStageAndStep` (main.go lines 423-448). -/
def resolveBuildStageAndStep (build : Build) (stageName stepName : String) : Int × Int × String × Bool :=
  resolveStages stageName stepName build.stages

/-- Declarative resolver used to state C2, written from the spec's words:
find the first stage whose name matches; inside it find the first step
whose name matches; any miss yields `found = false` with zero results. -/
def resolveSpec (build : Build) (stageName stepName : String) : Int × Int × String × Bool :=
  match build.stages.find? (fun stage => stage.name = stageName) with
  | none => (0, 0, "", false)
  | some stage =>
    match stage.steps.find? (fun step => step.name = stepName) with
    | none => (0, 0, "", false)
    | some step => (stage.number, step.number, step.status, true)

/-- The two-stage build of the spec's resolver example (§8): stage `A`
with steps `x`, `y` and stage `B` with step `x`. -/
def buildAB : Build :=
  ⟨[⟨"A", 1, [⟨"x", 1, "success"⟩, ⟨"y", 2, "success"⟩]⟩,
    ⟨"B", 2, [⟨"x", 1, "success"⟩]⟩]⟩

/-! ## Log curation (main.go lines 336-347 and 460-483) -/

/-- Embedding of the log filtering loop of `mainCmd` (main.go lines
336-344): strip trailing newlines from each message, then keep a line
unless `verbatim` is false and the line starts with `+`. -/
def curateStep (verbatim : Bool) : List String → List String
  | [] => []
  | line :: rest =>
    let log := trimTrailingNewlines line
    if verbatim || !startsWithPlus log then log :: curateStep verbatim rest
    else curateStep verbatim rest

/-- A line is blank when `strings.TrimSpace` leaves nothing (main.go lines
464 and 474). -/
def isBlankLine (l : String) : Bool :=
  goTrimSpace l = ""

/-- Embedding of `trimBlankLogs` (main.go lines 460-483): drop blank lines
from the front until a non-blank line appears, then likewise from the
back. -/
def trimBlankLogs (logs : List String) : List String :=
  (((logs.dropWhile isBlankLine).reverse.dropWhile isBlankLine)).reverse

/-! ## Remote collaborators and the run model (main.go lines 71-381)

`mainCmd` is embedded as a pure function of the environment variables it
reads and of an oracle (`World`) fixing the outcome of every remote call
it can make.  The embedding returns the process result, the ordered list
of attempted remote calls, and the final comment list of the pull
request.  Listing failure makes `ListComments` return its zero value
(`nil`), so the deletion loop iterates nothing, exactly as in the code. -/

/-- `drone.StatusPassing` ("success"). -/
def StatusPassing : String := "success"

/-- `drone.StatusFailing` ("failure"). -/
def StatusFailing : String := "failure"

/-- One pull request comment, as the fields of `github.IssueComment` used
by the program: id, author login, body. -/
structure Comment where
  id : Nat
  user : String
  body : String
  deriving DecidableEq

/-- One raw log record: the `Message` field of `drone.Line`. -/
structure LogLine where
  message : String
  deriving DecidableEq

/-- The environment variables read by `mainCmd` (main.go lines 77-152). -/
structure Env where
  droneBuildNumber : String
  droneCommitSHA : String
  dronePullRequest : String
  droneRepoName : String
  droneRepoOwner : String
  droneSystemProto : String
  droneSystemHostname : String
  droneToken : String
  githubToken : String
  pluginKeep : String
  pluginStage : String
  pluginStep : String
  pluginWhen : String
  pluginVerbatim : String

/-- Oracle for the remote collaborators: the result of each call `mainCmd`
can make.  `none` means the call fails with an error.  `prComments` is
the actual comment list of the pull request; `listOk` tells whether
`ListComments` succeeds in returning it; `deleteOk` tells per comment id
whether `DeleteComment` succeeds; `freshId` is the id GitHub assigns to
a newly created comment. -/
structure World where
  droneSelfLogin : Option String
  githubUserLogin : Option String
  build : Option Build
  prComments : List Comment
  listOk : Bool
  deleteOk : Nat → Bool
  logs : Option (List LogLine)
  createOk : Bool
  freshId : Nat

/-- The `templateContext` value object (main.go lines 28-42).  The Go
`map[string]string` label set is carried as an association list. -/
structure TemplateContext where
  BuildNumber : Int
  DroneServer : String
  Labels : List (String × String)
  Logs : List String
  PullRequest : Int
  RepoName : String
  RepoOwner : String
  SHA : String
  StageName : String
  StageNumber : Int
  Status : String
  StepName : String
  StepNumber : Int

/-- One attempted remote call, in program order. -/
inductive Effect where
  | fetchDroneSelf
  | fetchGithubUser
  | fetchBuild
  | listComments
  | deleteComment (id : Nat)
  | fetchLogs
  | createComment (body : String)
  deriving DecidableEq

/-- Outcome of one plugin run: the process result, the attempted remote
calls in order, and the final comment list of the pull request. -/
structure RunOutcome where
  result : Except String Unit
  effects : List Effect
  finalComments : List Comment

/-- The label set built by `mainCmd` (main.go lines 265-268). -/
def labelsOf (env : Env) : List (String × String) :=
  [("stage", env.pluginStage), ("step", env.pluginStep)]

/-- The DroneCI server address (main.go line 220). -/
def droneServerOf (env : Env) : String :=
  env.droneSystemProto ++ "://" ++ env.droneSystemHostname

/-- The deletion condition of the loop at main.go lines 282-305: the
comment's author is the authenticated GitHub user and its body carries
the run's label set as markdown metadata. -/
def shouldDelete (githubLogin : String) (labels : List (String × String)) (c : Comment) : Bool :=
  c.user = githubLogin && hasMarkdownLabels c.body labels

/-- Remote calls attempted by the listing/deletion pass (main.go lines
272-306): one list call, then one delete call per listed comment that
meets the deletion condition.  A failed listing yields an empty listing. -/
def deletePassEffects (w : World) (githubLogin : String) (labels : List (String × String)) : List Effect :=
  let listed := if w.listOk then w.prComments else []
  Effect.listComments :: (listed.filter (shouldDelete githubLogin labels)).map (fun c => Effect.deleteComment c.id)

/-- Pull request comments surviving the deletion pass: a comment is gone
exactly when the listing succeeded, the comment met the deletion
condition, and its delete call succeeded. -/
def deletePassComments (w : World) (githubLogin : String) (labels : List (String × String)) : List Comment :=
  if w.listOk then
    w.prComments.filter (fun c => !(shouldDelete githubLogin labels c && w.deleteOk c.id))
  else w.prComments

/-- Comments of a list that are authored by the given login and carry the
given label set; used to state C3. -/
def matchingComments (cs : List Comment) (githubLogin : String) (labels : List (String × String)) : List Comment :=
  cs.filter (shouldDelete githubLogin labels)

/-- Embedding of `templateComment` with the repository's `comment.tpl`
body.  `slice .SHA 0 7` fails template execution when the SHA is shorter
than seven characters (byte indices; the SHA is ASCII); otherwise
rendering is total.  `{{- range .Logs}}` emits a newline before each log
line and the trailing-whitespace trim keeps the closing fence on its own
line. -/
def templateComment (params : TemplateContext) : Except String String :=
  if params.SHA.length < 7 then Except.error "template: slice index out of range"
  else Except.ok (
    (if params.Status = "success" then "✅" else "❌")
    ++ " Build output from step [" ++ params.StepName ++ "]("
    ++ droneServerLink params ++ ") on commit ["
    ++ String.mk (params.SHA.data.take 7) ++ "](https://github.com/"
    ++ params.RepoOwner ++ "/" ++ params.RepoName ++ "/pull/"
    ++ toString params.PullRequest ++ "/commits/" ++ params.SHA ++ "):\n\n"
    ++ "```text"
    ++ String.join (params.Logs.map (fun l => "\n" ++ l))
    ++ "\n```")
where
  /-- The step link target of the template:
  server/owner/repo/build/stage/step. -/
  droneServerLink (params : TemplateContext) : String :=
    params.DroneServer ++ "/" ++ params.RepoOwner ++ "/" ++ params.RepoName
    ++ "/" ++ toString params.BuildNumber ++ "/" ++ toString params.StageNumber
    ++ "/" ++ toString params.StepNumber

/-- Outcome of a run that stops before any remote call. -/
def envErr (w : World) (msg : String) : RunOutcome :=
  ⟨Except.error msg, [], w.prComments⟩

/-- The remote calls made before the listing/deletion pass. -/
def preEffects : List Effect :=
  [Effect.fetchDroneSelf, Effect.fetchGithubUser, Effect.fetchBuild]

/-- The tail of `mainCmd` after stage/step resolution succeeded (main.go
lines 263-381): build the label set, run the listing/deletion pass unless
`keep` is set, reject non-terminal statuses, apply the success/failure
policy gate, fetch and curate the logs, render the comment, create it. -/
def mainLifecycle (env : Env) (w : World) (buildNumber pullRequest : Int)
    (keep verbatim : Bool) (githubLogin : String)
    (stageNumber stepNumber : Int) (status : String) : RunOutcome :=
  let labels := labelsOf env
  let delEffects := if keep then [] else deletePassEffects w githubLogin labels
  let comments := if keep then w.prComments else deletePassComments w githubLogin labels
  let effs := preEffects ++ delEffects
  if status ≠ StatusPassing ∧ status ≠ StatusFailing then
    ⟨Except.error ("target step status is " ++ status), effs, comments⟩
  else if status = StatusPassing ∧ env.pluginWhen = "failure" then
    ⟨Except.ok (), effs, comments⟩
  else if status = StatusFailing ∧ env.pluginWhen = "success" then
    ⟨Except.ok (), effs, comments⟩
  else
    match w.logs with
    | none => ⟨Except.error "log fetch failed", effs ++ [Effect.fetchLogs], comments⟩
    | some lines =>
      let logs := trimBlankLogs (curateStep verbatim (lines.map LogLine.message))
      match templateComment
          ⟨buildNumber, droneServerOf env, labels, logs, pullRequest,
           env.droneRepoName, env.droneRepoOwner, env.droneCommitSHA,
           env.pluginStage, stageNumber, status, env.pluginStep, stepNumber⟩ with
      | Except.error msg => ⟨Except.error msg, effs ++ [Effect.fetchLogs], comments⟩
      | Except.ok body =>
        if w.createOk then
          ⟨Except.ok (), effs ++ [Effect.fetchLogs, Effect.createComment body],
           comments ++ [⟨w.freshId, githubLogin, body⟩]⟩
        else
          ⟨Except.error "create comment failed",
           effs ++ [Effect.fetchLogs, Effect.createComment body], comments⟩

/-- Stage/step resolution step of `mainCmd` (main.go lines 254-261):
failure to resolve aborts the run. -/
def mainResolve (env : Env) (w : World) (buildNumber pullRequest : Int)
    (keep verbatim : Bool) (githubLogin : String) (build : Build) : RunOutcome :=
  let r := resolveBuildStageAndStep build env.pluginStage env.pluginStep
  if r.2.2.2 = false then
    ⟨Except.error "build stage and step could not be found", preEffects, w.prComments⟩
  else
    mainLifecycle env w buildNumber pullRequest keep verbatim githubLogin r.1 r.2.1 r.2.2.1

/-- The three fatal fetches of `mainCmd` (main.go lines 229-249): DroneCI
identity, GitHub identity, build metadata. -/
def mainFetch (env : Env) (w : World) (buildNumber pullRequest : Int)
    (keep verbatim : Bool) : RunOutcome :=
  match w.droneSelfLogin with
  | none => ⟨Except.error "drone self fetch failed", [Effect.fetchDroneSelf], w.prComments⟩
  | some _ =>
    match w.githubUserLogin with
    | none =>
      ⟨Except.error "github user fetch failed",
       [Effect.fetchDroneSelf, Effect.fetchGithubUser], w.prComments⟩
    | some githubLogin =>
      match w.build with
      | none => ⟨Except.error "build fetch failed", preEffects, w.prComments⟩
      | some build => mainResolve env w buildNumber pullRequest keep verbatim githubLogin build

/-- Numeric and boolean option parsing of `mainCmd` (main.go lines
188-210): number parse failures abort, boolean parse failures default to
`false`. -/
def mainParse (env : Env) (w : World) : RunOutcome :=
  match goAtoi env.droneBuildNumber with
  | none => envErr w "parsing DRONE_BUILD_NUMBER: invalid syntax"
  | some buildNumber =>
    match goAtoi env.dronePullRequest with
    | none => envErr w "parsing DRONE_PULL_REQUEST: invalid syntax"
    | some pullRequest =>
      mainFetch env w buildNumber pullRequest
        ((goParseBool env.pluginKeep).getD false)
        ((goParseBool env.pluginVerbatim).getD false)

/-- Embedding of `mainCmd` (main.go lines 71-381), starting with the
validation switch (lines 158-186): an absent pull request number is a
successful no-op, any other absent setting aborts, and everything else
proceeds through parsing, the remote fetches, and the comment lifecycle. -/
def mainCmdModel (env : Env) (w : World) : RunOutcome :=
  if env.dronePullRequest = "" then ⟨Except.ok (), [], w.prComments⟩
  else if env.droneBuildNumber = "" then envErr w "DRONE_BUILD_NUMBER was not provided"
  else if env.droneCommitSHA = "" then envErr w "DRONE_COMMIT_SHA was not provided"
  else if env.droneRepoName = "" then envErr w "DRONE_REPO_NAME was not provided"
  else if env.droneRepoOwner = "" then envErr w "DRONE_REPO_OWNER was not provided"
  else if env.droneSystemProto = "" then envErr w "DRONE_SYSTEM_PROTO was not provided"
  else if env.droneSystemHostname = "" then envErr w "DRONE_SYSTEM_HOSTNAME was not provided"
  else if env.droneToken = "" then envErr w "DRONE_TOKEN was not provided"
  else if env.githubToken = "" then envErr w "GITHUB_TOKEN was not provided"
  else if env.pluginStage = "" then envErr w "PLUGIN_STAGE was not provided"
  else if env.pluginStep = "" then envErr w "PLUGIN_STEP was not provided"
  else mainParse env w

/-- All settings other than the pull request number are present and the
two numeric settings parse (main.go lines 158-198). -/
structure ValidEnv (env : Env) : Prop where
  pr : env.dronePullRequest ≠ ""
  bn : env.droneBuildNumber ≠ ""
  sha : env.droneCommitSHA ≠ ""
  rn : env.droneRepoName ≠ ""
  ro : env.droneRepoOwner ≠ ""
  proto : env.droneSystemProto ≠ ""
  host : env.droneSystemHostname ≠ ""
  dtok : env.droneToken ≠ ""
  gtok : env.githubToken ≠ ""
  stg : env.pluginStage ≠ ""
  stp : env.pluginStep ≠ ""
  bnP : (goAtoi env.droneBuildNumber).isSome
  prP : (goAtoi env.dronePullRequest).isSome

/-- The run reaches the log fetch: the configured stage and step resolve
with a terminal status and the policy gate does not skip. -/
def ReachesLogs (env : Env) (w : World) : Prop :=
  ∃ b sn pn st, w.build = some b
    ∧ resolveBuildStageAndStep b env.pluginStage env.pluginStep = (sn, pn, st, true)
    ∧ (st = StatusPassing ∨ st = StatusFailing)
    ∧ ¬(st = StatusPassing ∧ env.pluginWhen = "failure")
    ∧ ¬(st = StatusFailing ∧ env.pluginWhen = "success")

/-- The run signalled an error. -/
def isFatal (o : RunOutcome) : Prop :=
  ∃ msg, o.result = Except.error msg

/-! ## Concrete fixtures used by counterexamples and witnesses -/

/-- A fully populated environment: build 42 on pull request 5, targeting
stage `build` / step `lint`, policy `always`, `keep` and `verbatim`
unset. -/
def envBase : Env :=
  ⟨"42", "bcdd4bf0245c82c0", "5", "repo", "octo", "https", "drone.example.com",
   "dtok", "gtok", "", "build", "lint", "always", ""⟩

/-- The base environment with the failure-only comment policy. -/
def envWhenFailure : Env :=
  { envBase with pluginWhen := "failure" }

/-- The base environment with an absent pull request number. -/
def envNoPR : Env :=
  { envBase with dronePullRequest := "" }

/-- A build whose stage `build` (number 1) has one step `lint` (number 2)
that passed. -/
def buildPassing : Build :=
  ⟨[⟨"build", 1, [⟨"lint", 2, "success"⟩]⟩]⟩

/-- A stale comment by the plugin's GitHub identity carrying the
`stage=build`, `step=lint` label set. -/
def staleComment : Comment :=
  ⟨7, "gh-bot", "[//]: # (stage=build)\n[//]: # (step=lint)\nstale"⟩

/-- A second stale labelled comment by the same identity. -/
def staleComment2 : Comment :=
  ⟨8, "gh-bot", "[//]: # (stage=build)\n[//]: # (step=lint)\nolder"⟩

/-- An oracle where every remote call succeeds: the pull request holds one
stale labelled comment, and the target step emitted no log lines. -/
def wAllOk : World :=
  ⟨some "drone-bot", some "gh-bot", some buildPassing, [staleComment],
   true, fun _ => true, some [], true, 99⟩

/-- An oracle where listing comments fails but everything else succeeds;
the step emitted a shell echo and one ordinary line. -/
def wListFails : World :=
  { wAllOk with listOk := false, logs := some [⟨"+ls\n"⟩, ⟨"ok"⟩] }

/-- An oracle holding two stale labelled comments, everything succeeding. -/
def wTwoStale : World :=
  { wAllOk with prComments := [staleComment, staleComment2] }

/-! ## Helper lemmas -/

theorem resolveSteps_eq_find (stageNumber : Int) (stepName : String) (steps : List Step) :
    resolveSteps stageNumber stepName steps =
      match steps.find? (fun step => step.name = stepName) with
      | none => (0, 0, "", false)
      | some step => (stageNumber, step.number, step.status, true) := by
  induction steps with
  | nil => rfl
  | cons s rest ih =>
    by_cases h : s.name = stepName
    · simp [resolveSteps, h, List.find?_cons]
    · simp [resolveSteps, h, List.find?_cons, ih]

theorem resolveStages_eq_find (stageName stepName : String) (stages : List Stage) :
    resolveStages stageName stepName stages =
      match stages.find? (fun stage => stage.name = stageName) with
      | none => (0, 0, "", false)
      | some stage =>
        match stage.steps.find? (fun step => step.name = stepName) with
        | none => (0, 0, "", false)
        | some step => (stage.number, step.number, step.status, true) := by
  induction stages with
  | nil => rfl
  | cons s rest ih =>
    by_cases h : s.name = stageName
    · simp [resolveStages, h, List.find?_cons, resolveSteps_eq_find]
    · simp [resolveStages, h, List.find?_cons, ih]

theorem extractLoop_eq (lines : List String) :
    ∀ m, extractLoop lines m = (lines.filterMap parsedLabelOfLine).reverse ++ m := by
  induction lines with
  | nil => intro m; rfl
  | cons line rest ih =>
    intro m
    cases h : matchMarkdownMetadata line with
    | none => simp [extractLoop, h, parsedLabelOfLine, List.filterMap_cons, ih]
    | some kv =>
      obtain ⟨k, v⟩ := kv
      simp [extractLoop, h, parsedLabelOfLine, List.filterMap_cons, ih]

theorem lookupFirst_eq_find (xs : List (String × String)) (key : String) :
    lookupFirst xs key = (xs.find? (fun kv => kv.1 = key)).map Prod.snd := by
  induction xs with
  | nil => rfl
  | cons kv rest ih =>
    obtain ⟨k, v⟩ := kv
    by_cases h : k = key
    · simp [lookupFirst, h, List.find?_cons]
    · simp [lookupFirst, h, List.find?_cons, ih]

theorem head_dropWhile_false {α : Type} (p : α → Bool) :
    ∀ (l : List α) (x : α), (l.dropWhile p).head? = some x → p x = false := by
  intro l
  induction l with
  | nil => intro x h; simp at h
  | cons a rest ih =>
    intro x h
    rw [List.dropWhile_cons] at h
    by_cases hp : p a = true
    · rw [if_pos hp] at h; exact ih x h
    · rw [if_neg hp] at h
      simp only [List.head?_cons, Option.some.injEq] at h
      subst h
      simpa using hp

theorem dropWhile_eq_self_of_head {α : Type} (p : α → Bool) (l : List α)
    (h : ∀ x, l.head? = some x → p x = false) : l.dropWhile p = l := by
  cases l with
  | nil => rfl
  | cons a rest =>
    rw [List.dropWhile_cons, if_neg]
    simp [h a rfl]

theorem dropWhile_eq_nil_of_all {α : Type} (p : α → Bool) (l : List α)
    (h : ∀ x ∈ l, p x = true) : l.dropWhile p = [] := by
  induction l with
  | nil => rfl
  | cons a rest ih =>
    rw [List.dropWhile_cons, if_pos (h a (by simp))]
    exact ih (fun x hx => h x (by simp [hx]))

theorem mem_takeWhile_true {α : Type} (p : α → Bool) (l : List α) :
    ∀ x ∈ l.takeWhile p, p x = true := by
  induction l with
  | nil => simp
  | cons a rest ih =>
    rw [List.takeWhile_cons]
    by_cases hp : p a = true
    · rw [if_pos hp]
      intro x hx
      rcases List.mem_cons.mp hx with h1 | h2
      · subst h1; exact hp
      · exact ih x h2
    · rw [if_neg hp]; simp

/-! ## Claim theorems: pure components -/

/-- C2: resolution scans stages in order and, on the first stage whose name
equals the configured stage name, scans its steps in order; a stage match
without a step match yields `found = false` without consulting later
stages, as does the absence of any stage match; on success the matched
stage's number, step's number, and step status are returned with
`found = true`.  Stated as equality with the declarative first-match
resolver, plus the spec's two-stage example. -/
theorem resolveBuildStageAndStep_spec (build : Build) (stageName stepName : String) :
    resolveBuildStageAndStep build stageName stepName = resolveSpec build stageName stepName
    ∧ resolveBuildStageAndStep buildAB "A" "y" = (1, 2, "success", true)
    ∧ resolveBuildStageAndStep buildAB "B" "y" = (0, 0, "", false) := by
  refine ⟨?_, by decide, by decide⟩
  unfold resolveBuildStageAndStep resolveSpec
  exact resolveStages_eq_find stageName stepName build.stages

/-- C4: blank trimming removes a maximal run of whitespace-only lines from
the front and from the back (the surviving first and last lines are
non-blank), preserves the surviving lines — interior blanks included —
verbatim and in order (the input is the result flanked by blank runs),
maps an all-blank input to the empty sequence, and maps the example
`["", "  ", "a", "", "b", ""]` to `["a", "", "b"]`. -/
theorem trimBlankLogs_spec (logs : List String) :
    (∃ pre post, logs = pre ++ trimBlankLogs logs ++ post
        ∧ (∀ l ∈ pre, isBlankLine l = true) ∧ (∀ l ∈ post, isBlankLine l = true))
    ∧ (∀ x, (trimBlankLogs logs).head? = some x → isBlankLine x = false)
    ∧ (∀ x, (trimBlankLogs logs).getLast? = some x → isBlankLine x = false)
    ∧ ((∀ l ∈ logs, isBlankLine l = true) → trimBlankLogs logs = [])
    ∧ trimBlankLogs ["", "  ", "a", "", "b", ""] = ["a", "", "b"] := by
  have hmid : logs.takeWhile isBlankLine ++ logs.dropWhile isBlankLine = logs :=
    List.takeWhile_append_dropWhile isBlankLine logs
  have hback : trimBlankLogs logs
      = ((logs.dropWhile isBlankLine).reverse.dropWhile isBlankLine).reverse := rfl
  have hdecomp : logs.dropWhile isBlankLine
      = trimBlankLogs logs ++ ((logs.dropWhile isBlankLine).reverse.takeWhile isBlankLine).reverse := by
    rw [hback]
    have h1 : (logs.dropWhile isBlankLine).reverse.takeWhile isBlankLine
        ++ (logs.dropWhile isBlankLine).reverse.dropWhile isBlankLine
        = (logs.dropWhile isBlankLine).reverse :=
      List.takeWhile_append_dropWhile isBlankLine (logs.dropWhile isBlankLine).reverse
    have h2 := congrArg List.reverse h1
    rw [List.reverse_append, List.reverse_reverse] at h2
    exact h2.symm
  refine ⟨⟨logs.takeWhile isBlankLine,
          ((logs.dropWhile isBlankLine).reverse.takeWhile isBlankLine).reverse, ?_, ?_, ?_⟩,
          ?_, ?_, ?_, by decide⟩
  · rw [List.append_assoc, ← hdecomp, hmid]
  · exact mem_takeWhile_true isBlankLine logs
  · intro x hx
    exact mem_takeWhile_true isBlankLine (logs.dropWhile isBlankLine).reverse x
      (List.mem_reverse.mp hx)
  · intro x hx
    obtain ⟨t, ht⟩ : ∃ t, trimBlankLogs logs = x :: t := by
      cases hr : trimBlankLogs logs with
      | nil => rw [hr] at hx; simp at hx
      | cons a t =>
        rw [hr] at hx
        simp only [List.head?_cons, Option.some.injEq] at hx
        exact ⟨t, by rw [hx]⟩
    have hhd : (logs.dropWhile isBlankLine).head? = some x := by
      rw [hdecomp, ht]; rfl
    exact head_dropWhile_false isBlankLine logs x hhd
  · intro x hx
    have h1 : (trimBlankLogs logs).getLast? = (trimBlankLogs logs).reverse.head? :=
      (List.head?_reverse _).symm
    rw [h1, hback, List.reverse_reverse] at hx
    exact head_dropWhile_false isBlankLine (logs.dropWhile isBlankLine).reverse x hx
  · intro hall
    have h1 : logs.dropWhile isBlankLine = [] := dropWhile_eq_nil_of_all _ _ hall
    rw [hback, h1]
    rfl

/-- C4 witness: the claim theorem applied at the spec's blank-trim example. -/
theorem trimBlankLogs_spec_witness :
    trimBlankLogs ["", "  ", "a", "", "b", ""] = ["a", "", "b"] :=
  (trimBlankLogs_spec []).2.2.2.2

/-- C5: log curation first strips trailing newline characters from each
fetched message and then, when `verbatim` is false, drops exactly the
lines whose first character (after the strip) is `+`, keeping every line
when `verbatim` is true; including the spec's two examples. -/
theorem curateStep_spec (verbatim : Bool) (lines : List String) :
    curateStep verbatim lines =
      (lines.map trimTrailingNewlines).filter (fun l => verbatim || !startsWithPlus l)
    ∧ curateStep true lines = lines.map trimTrailingNewlines
    ∧ curateStep false ["+ls", "ok"] = ["ok"]
    ∧ curateStep true ["+ls", "ok"] = ["+ls", "ok"] := by
  have key : ∀ (vb : Bool) (ls : List String),
      curateStep vb ls = (ls.map trimTrailingNewlines).filter (fun l => vb || !startsWithPlus l) := by
    intro vb ls
    induction ls with
    | nil => rfl
    | cons line rest ih =>
      by_cases h : (vb || !startsWithPlus (trimTrailingNewlines line)) = true
      · simp only [curateStep, List.map_cons, List.filter_cons, h, if_true, ih]
      · simp only [curateStep, List.map_cons, List.filter_cons, h, if_false, ih,
          Bool.false_eq_true]
  refine ⟨key verbatim lines, ?_, by decide, by decide⟩
  rw [key true lines]
  simp

/-- C10: the metadata matcher with an empty label set matches every
comment body; the subset check is vacuously true. -/
theorem hasMarkdownLabels_empty (comment : String) :
    hasMarkdownLabels comment [] = true := rfl

/-- C6: the metadata matcher scans the body line by line, records the
trimmed key/value of each line matching the metadata pattern with the
last occurrence of a repeated key winning, ignores all other lines, and
matches exactly when every label key is recorded with an identical value
— extra recorded keys being irrelevant.  Stated as equality with the
declarative last-occurrence lookup. -/
theorem hasMarkdownLabels_spec (comment : String) (labels : List (String × String)) :
    hasMarkdownLabels comment labels =
      labels.all (fun kv => lastRecorded comment kv.1 = some kv.2) := by
  unfold hasMarkdownLabels lastRecorded extractedPairs
  simp only [extractLoop_eq, List.append_nil, lookupFirst_eq_find]

theorem trimTrailingNewlines_eq_self (l : String) (h : l.data.getLast? ≠ some '\n') :
    trimTrailingNewlines l = l := by
  unfold trimTrailingNewlines
  have hd : l.data.reverse.dropWhile (fun c => c = '\n') = l.data.reverse := by
    apply dropWhile_eq_self_of_head
    intro x hx
    rw [List.head?_reverse] at hx
    rw [hx] at h
    simp only [ne_eq, Option.some.injEq] at h
    simp [h]
  rw [hd, List.reverse_reverse]

theorem curateStep_eq_self (verbatim : Bool) (logs : List String)
    (h : ∀ l ∈ logs,
      trimTrailingNewlines l = l ∧ (verbatim || !startsWithPlus l) = true) :
    curateStep verbatim logs = logs := by
  induction logs with
  | nil => rfl
  | cons a rest ih =>
    obtain ⟨ha, hk⟩ := h a (by simp)
    have hrest := ih (fun l hl => h l (List.mem_cons_of_mem a hl))
    simp only [curateStep, ha, hk, if_true, hrest]

theorem trimBlankLogs_eq_self (logs : List String)
    (hhead : ∀ x, logs.head? = some x → isBlankLine x = false)
    (hlast : ∀ x, logs.getLast? = some x → isBlankLine x = false) :
    trimBlankLogs logs = logs := by
  unfold trimBlankLogs
  rw [dropWhile_eq_self_of_head isBlankLine logs hhead]
  rw [dropWhile_eq_self_of_head isBlankLine logs.reverse
    (fun x hx => hlast x (by rwa [List.head?_reverse] at hx))]
  exact List.reverse_reverse logs

/-- C7: the curation pipeline — newline strip and `+`-filter followed by
blank trimming — returns an already-curated sequence unchanged: one with
no trailing newline on any line, no `+`-prefixed line when `verbatim` is
false, and non-blank first and last lines. -/
theorem curatePipeline_idempotent (verbatim : Bool) (logs : List String)
    (hnl : ∀ l ∈ logs, l.data.getLast? ≠ some '\n')
    (hplus : verbatim = false → ∀ l ∈ logs, startsWithPlus l = false)
    (hhead : ∀ x, logs.head? = some x → isBlankLine x = false)
    (hlast : ∀ x, logs.getLast? = some x → isBlankLine x = false) :
    trimBlankLogs (curateStep verbatim logs) = logs := by
  have hcur : curateStep verbatim logs = logs := by
    apply curateStep_eq_self
    intro l hl
    refine ⟨trimTrailingNewlines_eq_self l (hnl l hl), ?_⟩
    cases hv : verbatim
    · simp [hplus hv l hl]
    · simp
  rw [hcur]
  exact trimBlankLogs_eq_self logs hhead hlast

/-- C7 witness: the claim theorem applied to a concrete already-curated
sequence with an interior blank line. -/
theorem curatePipeline_idempotent_witness :
    trimBlankLogs (curateStep false ["ok", "", "done"]) = ["ok", "", "done"] :=
  curatePipeline_idempotent false ["ok", "", "done"] (by decide)
    (fun _ => by decide) (by decide) (by decide)

/-! ## Helper lemmas about the run model -/

theorem mainCmdModel_eq_parse (env : Env) (w : World) (hv : ValidEnv env) :
    mainCmdModel env w = mainParse env w := by
  obtain ⟨h1, h2, h3, h4, h5, h6, h7, h8, h9, h10, h11, _, _⟩ := hv
  simp [mainCmdModel, h1, h2, h3, h4, h5, h6, h7, h8, h9, h10, h11]

theorem mainParse_eq_fetch (env : Env) (w : World) (bn pn : Int)
    (hbn : goAtoi env.droneBuildNumber = some bn)
    (hpn : goAtoi env.dronePullRequest = some pn) :
    mainParse env w = mainFetch env w bn pn
      ((goParseBool env.pluginKeep).getD false)
      ((goParseBool env.pluginVerbatim).getD false) := by
  simp [mainParse, hbn, hpn]

theorem mainFetch_eq_resolve (env : Env) (w : World) (bn pn : Int)
    (keep verbatim : Bool) (dl gl : String) (b : Build)
    (hs : w.droneSelfLogin = some dl) (hg : w.githubUserLogin = some gl)
    (hb : w.build = some b) :
    mainFetch env w bn pn keep verbatim = mainResolve env w bn pn keep verbatim gl b := by
  simp [mainFetch, hs, hg, hb]

theorem mainResolve_eq_lifecycle (env : Env) (w : World) (bn pn : Int)
    (keep verbatim : Bool) (gl : String) (b : Build) (sn stn : Int) (st : String)
    (hres : resolveBuildStageAndStep b env.pluginStage env.pluginStep = (sn, stn, st, true)) :
    mainResolve env w bn pn keep verbatim gl b
      = mainLifecycle env w bn pn keep verbatim gl sn stn st := by
  simp [mainResolve, hres]

theorem mainCmdModel_eq_lifecycle (env : Env) (w : World) (hv : ValidEnv env)
    (bn pn : Int) (dl gl : String) (b : Build) (sn stn : Int) (st : String)
    (hbn : goAtoi env.droneBuildNumber = some bn)
    (hpn : goAtoi env.dronePullRequest = some pn)
    (hs : w.droneSelfLogin = some dl) (hg : w.githubUserLogin = some gl)
    (hb : w.build = some b)
    (hres : resolveBuildStageAndStep b env.pluginStage env.pluginStep = (sn, stn, st, true)) :
    mainCmdModel env w = mainLifecycle env w bn pn
      ((goParseBool env.pluginKeep).getD false)
      ((goParseBool env.pluginVerbatim).getD false) gl sn stn st := by
  rw [mainCmdModel_eq_parse env w hv, mainParse_eq_fetch env w bn pn hbn hpn,
    mainFetch_eq_resolve env w bn pn _ _ dl gl b hs hg hb,
    mainResolve_eq_lifecycle env w bn pn _ _ gl b sn stn st hres]

theorem createComment_not_in_deletePass (w : World) (gl : String)
    (labels : List (String × String)) (body : String) :
    Effect.createComment body ∉ deletePassEffects w gl labels := by
  simp [deletePassEffects]

theorem matching_deletePass_nil (w : World) (gl : String)
    (labels : List (String × String))
    (hlist : w.listOk = true) (hdel : ∀ id, w.deleteOk id = true) :
    matchingComments (deletePassComments w gl labels) gl labels = [] := by
  unfold matchingComments deletePassComments
  rw [hlist, if_pos rfl]
  simp [List.filter_filter, hdel]

theorem mainLifecycle_finalComments (env : Env) (w : World) (bn pn : Int)
    (verbatim : Bool) (gl : String) (sn stn : Int) (st : String) :
    (mainLifecycle env w bn pn false verbatim gl sn stn st).finalComments
      = deletePassComments w gl (labelsOf env)
    ∨ ∃ c, (mainLifecycle env w bn pn false verbatim gl sn stn st).finalComments
      = deletePassComments w gl (labelsOf env) ++ [c] := by
  simp only [mainLifecycle, Bool.false_eq_true, if_false]
  split
  · left; rfl
  · split
    · left; rfl
    · split
      · left; rfl
      · split
        · left; rfl
        · split
          · left; rfl
          · split
            · right; exact ⟨_, rfl⟩
            · left; rfl

/-! ## Claim theorems: run lifecycle -/

/-- C1 (amended): when the resolved step status is passing but the policy
is `failure` (or failing but the policy is `success`), the run
terminates successfully and no comment-creation call is attempted; but
the listing/deletion pass has already run before the policy gate, so
(unless `keep` is set) previously matching comments have been deleted:
the final comment list is the deletion pass's result. -/
theorem mainCmd_policy_skip (env : Env) (w : World) (hv : ValidEnv env)
    (dl gl : String) (b : Build) (sn stn : Int) (st : String)
    (hs : w.droneSelfLogin = some dl) (hg : w.githubUserLogin = some gl)
    (hb : w.build = some b)
    (hres : resolveBuildStageAndStep b env.pluginStage env.pluginStep = (sn, stn, st, true))
    (hskip : (st = StatusPassing ∧ env.pluginWhen = "failure")
      ∨ (st = StatusFailing ∧ env.pluginWhen = "success")) :
    (mainCmdModel env w).result = Except.ok ()
    ∧ (∀ body, Effect.createComment body ∉ (mainCmdModel env w).effects)
    ∧ (mainCmdModel env w).finalComments =
        (if (goParseBool env.pluginKeep).getD false then w.prComments
         else deletePassComments w gl (labelsOf env)) := by
  obtain ⟨bn, hbn⟩ := Option.isSome_iff_exists.mp hv.bnP
  obtain ⟨pn, hpn⟩ := Option.isSome_iff_exists.mp hv.prP
  rw [mainCmdModel_eq_lifecycle env w hv bn pn dl gl b sn stn st hbn hpn hs hg hb hres]
  have hmain : mainLifecycle env w bn pn ((goParseBool env.pluginKeep).getD false)
      ((goParseBool env.pluginVerbatim).getD false) gl sn stn st =
      ⟨Except.ok (),
       preEffects ++ (if (goParseBool env.pluginKeep).getD false then []
         else deletePassEffects w gl (labelsOf env)),
       if (goParseBool env.pluginKeep).getD false then w.prComments
         else deletePassComments w gl (labelsOf env)⟩ := by
    rcases hskip with ⟨hst, hw⟩ | ⟨hst, hw⟩
    · simp [mainLifecycle, hst, hw, StatusPassing, StatusFailing]
    · simp [mainLifecycle, hst, hw, StatusPassing, StatusFailing]
  rw [hmain]
  refine ⟨rfl, ?_, rfl⟩
  intro body
  cases hk : (goParseBool env.pluginKeep).getD false
  · simp [preEffects, deletePassEffects]
  · simp [preEffects]

/-- C1 counterexample: a passing step with policy `failure` and one stale
labelled comment on the pull request.  The run terminates successfully
and creates nothing, but it has attempted and completed the deletion of
comment 7: the final comment list is empty, refuting that no existing
comment is deleted or modified in this case. -/
theorem mainCmd_policy_skip_counterexample :
    (mainCmdModel envWhenFailure wAllOk).result = Except.ok ()
    ∧ Effect.deleteComment 7 ∈ (mainCmdModel envWhenFailure wAllOk).effects
    ∧ wAllOk.prComments = [staleComment]
    ∧ (mainCmdModel envWhenFailure wAllOk).finalComments = [] :=
  ⟨rfl, by decide, rfl, rfl⟩

/-- C1 witness: the amended theorem instantiated at the counterexample's
environment and oracle. -/
theorem mainCmd_policy_skip_witness :
    (mainCmdModel envWhenFailure wAllOk).result = Except.ok ()
    ∧ (∀ body, Effect.createComment body ∉ (mainCmdModel envWhenFailure wAllOk).effects)
    ∧ (mainCmdModel envWhenFailure wAllOk).finalComments =
        (if (goParseBool envWhenFailure.pluginKeep).getD false then wAllOk.prComments
         else deletePassComments wAllOk "gh-bot" (labelsOf envWhenFailure)) :=
  mainCmd_policy_skip envWhenFailure wAllOk
    ⟨by decide, by decide, by decide, by decide, by decide, by decide, by decide,
     by decide, by decide, by decide, by decide, by decide, by decide⟩
    "drone-bot" "gh-bot" buildPassing 1 2 "success" rfl rfl rfl (by decide)
    (Or.inl ⟨rfl, rfl⟩)

/-- C3: under delete-then-create (`keep` unset), when listing succeeds and
every attempted deletion succeeds, a completed deletion pass leaves the
pull request with at most one comment that is authored by the plugin's
GitHub identity and carries metadata matching the current label set —
whatever the initial comment list and however the rest of the run ends. -/
theorem mainCmd_at_most_one_tagged (env : Env) (w : World) (hv : ValidEnv env)
    (hkeep : (goParseBool env.pluginKeep).getD false = false)
    (hlist : w.listOk = true) (hdel : ∀ id, w.deleteOk id = true)
    (dl gl : String) (b : Build)
    (hs : w.droneSelfLogin = some dl) (hg : w.githubUserLogin = some gl)
    (hb : w.build = some b)
    (sn stn : Int) (st : String)
    (hres : resolveBuildStageAndStep b env.pluginStage env.pluginStep = (sn, stn, st, true)) :
    (matchingComments (mainCmdModel env w).finalComments gl (labelsOf env)).length ≤ 1 := by
  obtain ⟨bn, hbn⟩ := Option.isSome_iff_exists.mp hv.bnP
  obtain ⟨pn, hpn⟩ := Option.isSome_iff_exists.mp hv.prP
  rw [mainCmdModel_eq_lifecycle env w hv bn pn dl gl b sn stn st hbn hpn hs hg hb hres, hkeep]
  have hnil := matching_deletePass_nil w gl (labelsOf env) hlist hdel
  rcases mainLifecycle_finalComments env w bn pn
      ((goParseBool env.pluginVerbatim).getD false) gl sn stn st with h | ⟨c, h⟩
  · rw [h, hnil]
    simp
  · rw [h]
    have hsplit : matchingComments (deletePassComments w gl (labelsOf env) ++ [c]) gl (labelsOf env)
        = matchingComments (deletePassComments w gl (labelsOf env)) gl (labelsOf env)
          ++ matchingComments [c] gl (labelsOf env) := by
      simp [matchingComments, List.filter_append]
    rw [hsplit, hnil]
    cases hc : shouldDelete gl (labelsOf env) c
    · simp [matchingComments, List.filter_cons, hc]
    · simp [matchingComments, List.filter_cons, hc]

/-- C3 witness: the theorem applied to a pull request initially holding
two stale labelled comments by the plugin identity. -/
theorem mainCmd_at_most_one_tagged_witness :
    (matchingComments (mainCmdModel envBase wTwoStale).finalComments
      "gh-bot" (labelsOf envBase)).length ≤ 1 :=
  mainCmd_at_most_one_tagged envBase wTwoStale
    ⟨by decide, by decide, by decide, by decide, by decide, by decide, by decide,
     by decide, by decide, by decide, by decide, by decide, by decide⟩
    rfl rfl (fun _ => rfl) "drone-bot" "gh-bot" buildPassing rfl rfl rfl
    1 2 "success" (by decide)

/-- C8: when no pull request number is configured, the run terminates
successfully, attempts no remote call, and leaves the pull request's
comments untouched — whatever the other settings (present, absent or
malformed) and whatever the oracle, so the check precedes every other
validation and every remote call. -/
theorem mainCmd_no_pull_request (env : Env) (w : World)
    (h : env.dronePullRequest = "") :
    (mainCmdModel env w).result = Except.ok ()
    ∧ (mainCmdModel env w).effects = []
    ∧ (mainCmdModel env w).finalComments = w.prComments := by
  simp [mainCmdModel, h]

/-- C8 witness: the theorem applied to an environment with an empty pull
request number (and everything else populated). -/
theorem mainCmd_no_pull_request_witness :
    (mainCmdModel envNoPR wAllOk).result = Except.ok ()
    ∧ (mainCmdModel envNoPR wAllOk).effects = []
    ∧ (mainCmdModel envNoPR wAllOk).finalComments = wAllOk.prComments :=
  mainCmd_no_pull_request envNoPR wAllOk rfl

/-- C9: failures of the comment-listing call or of individual deletion
calls never make the run signal an error — the lifecycle continues to
completion, including creating the new comment (the final conjunct holds
for every oracle, in particular with listing failed or deletions
failing) — whereas a failure of the DroneCI identity fetch, the GitHub
identity fetch, the build fetch, the log fetch, or the comment-creation
call aborts the run with an error. -/
theorem mainCmd_error_classes (env : Env) (w : World) (hv : ValidEnv env) :
    (w.droneSelfLogin = none → isFatal (mainCmdModel env w))
    ∧ (∀ dl, w.droneSelfLogin = some dl → w.githubUserLogin = none →
        isFatal (mainCmdModel env w))
    ∧ (∀ dl gl, w.droneSelfLogin = some dl → w.githubUserLogin = some gl →
        w.build = none → isFatal (mainCmdModel env w))
    ∧ (∀ dl gl, w.droneSelfLogin = some dl → w.githubUserLogin = some gl →
        ReachesLogs env w → w.logs = none → isFatal (mainCmdModel env w))
    ∧ (∀ dl gl lines, w.droneSelfLogin = some dl → w.githubUserLogin = some gl →
        ReachesLogs env w → w.logs = some lines → 7 ≤ env.droneCommitSHA.length →
        w.createOk = false → isFatal (mainCmdModel env w))
    ∧ (∀ dl gl lines, w.droneSelfLogin = some dl → w.githubUserLogin = some gl →
        ReachesLogs env w → w.logs = some lines → 7 ≤ env.droneCommitSHA.length →
        w.createOk = true →
        (mainCmdModel env w).result = Except.ok ()
        ∧ ∃ body, Effect.createComment body ∈ (mainCmdModel env w).effects) := by
  obtain ⟨bn, hbn⟩ := Option.isSome_iff_exists.mp hv.bnP
  obtain ⟨pn, hpn⟩ := Option.isSome_iff_exists.mp hv.prP
  have hparse : mainCmdModel env w = mainFetch env w bn pn
      ((goParseBool env.pluginKeep).getD false)
      ((goParseBool env.pluginVerbatim).getD false) := by
    rw [mainCmdModel_eq_parse env w hv, mainParse_eq_fetch env w bn pn hbn hpn]
  -- reduction of the lifecycle tail once the run reaches the log fetch
  have hlife : ∀ dl gl b sn stn st, w.droneSelfLogin = some dl →
      w.githubUserLogin = some gl → w.build = some b →
      resolveBuildStageAndStep b env.pluginStage env.pluginStep = (sn, stn, st, true) →
      (st = StatusPassing ∨ st = StatusFailing) →
      ¬(st = StatusPassing ∧ env.pluginWhen = "failure") →
      ¬(st = StatusFailing ∧ env.pluginWhen = "success") →
      mainCmdModel env w =
        (let keep := (goParseBool env.pluginKeep).getD false
         let labels := labelsOf env
         let delEffects := if keep then [] else deletePassEffects w gl labels
         let comments := if keep then w.prComments else deletePassComments w gl labels
         let effs := preEffects ++ delEffects
         match w.logs with
         | none => ⟨Except.error "log fetch failed", effs ++ [Effect.fetchLogs], comments⟩
         | some lines =>
           let logs := trimBlankLogs (curateStep ((goParseBool env.pluginVerbatim).getD false)
             (lines.map LogLine.message))
           match templateComment
               ⟨bn, droneServerOf env, labels, logs, pn,
                env.droneRepoName, env.droneRepoOwner, env.droneCommitSHA,
                env.pluginStage, sn, st, env.pluginStep, stn⟩ with
           | Except.error msg => ⟨Except.error msg, effs ++ [Effect.fetchLogs], comments⟩
           | Except.ok body =>
             if w.createOk then
               ⟨Except.ok (), effs ++ [Effect.fetchLogs, Effect.createComment body],
                comments ++ [⟨w.freshId, gl, body⟩]⟩
             else
               ⟨Except.error "create comment failed",
                effs ++ [Effect.fetchLogs, Effect.createComment body], comments⟩) := by
    intro dl gl b sn stn st hs hg hb hres hterm hnf hns
    rw [mainCmdModel_eq_lifecycle env w hv bn pn dl gl b sn stn st hbn hpn hs hg hb hres]
    have h1 : ¬(st ≠ StatusPassing ∧ st ≠ StatusFailing) := by
      rcases hterm with h | h <;> simp [h]
    unfold mainLifecycle
    rw [if_neg h1, if_neg hnf, if_neg hns]
  refine ⟨?_, ?_, ?_, ?_, ?_, ?_⟩
  · intro h
    rw [hparse]
    unfold mainFetch
    rw [h]
    exact ⟨_, rfl⟩
  · intro dl hs hg
    rw [hparse]
    unfold mainFetch
    rw [hs, hg]
    exact ⟨_, rfl⟩
  · intro dl gl hs hg hb
    rw [hparse]
    unfold mainFetch
    rw [hs, hg, hb]
    exact ⟨_, rfl⟩
  · intro dl gl hs hg hreach hlogs
    obtain ⟨b, sn, stn, st, hb, hres, hterm, hnf, hns⟩ := hreach
    rw [hlife dl gl b sn stn st hs hg hb hres hterm hnf hns]
    simp only [hlogs]
    exact ⟨_, rfl⟩
  · intro dl gl lines hs hg hreach hlogs hsha hcreate
    obtain ⟨b, sn, stn, st, hb, hres, hterm, hnf, hns⟩ := hreach
    rw [hlife dl gl b sn stn st hs hg hb hres hterm hnf hns]
    have hok : ¬((⟨bn, droneServerOf env, labelsOf env,
        trimBlankLogs (curateStep ((goParseBool env.pluginVerbatim).getD false)
          (lines.map LogLine.message)), pn,
        env.droneRepoName, env.droneRepoOwner, env.droneCommitSHA,
        env.pluginStage, sn, st, env.pluginStep, stn⟩ : TemplateContext).SHA.length < 7) :=
      Nat.not_lt.mpr hsha
    simp only [hlogs, templateComment, if_neg hok, hcreate]
    exact ⟨_, rfl⟩
  · intro dl gl lines hs hg hreach hlogs hsha hcreate
    obtain ⟨b, sn, stn, st, hb, hres, hterm, hnf, hns⟩ := hreach
    rw [hlife dl gl b sn stn st hs hg hb hres hterm hnf hns]
    have hok : ¬((⟨bn, droneServerOf env, labelsOf env,
        trimBlankLogs (curateStep ((goParseBool env.pluginVerbatim).getD false)
          (lines.map LogLine.message)), pn,
        env.droneRepoName, env.droneRepoOwner, env.droneCommitSHA,
        env.pluginStage, sn, st, env.pluginStep, stn⟩ : TemplateContext).SHA.length < 7) :=
      Nat.not_lt.mpr hsha
    simp only [hlogs, templateComment, if_neg hok, hcreate]
    exact ⟨rfl, ⟨_, List.mem_append_right _
      (List.mem_cons_of_mem _ (List.mem_singleton_self _))⟩⟩

/-- C9 witness: the final conjunct of the classification theorem applied
with an oracle whose comment-listing call fails: the run still succeeds
and attempts the comment creation. -/
theorem mainCmd_error_classes_witness :
    (mainCmdModel envBase wListFails).result = Except.ok ()
    ∧ ∃ body, Effect.createComment body ∈ (mainCmdModel envBase wListFails).effects :=
  (mainCmd_error_classes envBase wListFails
    ⟨by decide, by decide, by decide, by decide, by decide, by decide, by decide,
     by decide, by decide, by decide, by decide, by decide, by decide⟩).2.2.2.2.2
    "drone-bot" "gh-bot" [⟨"+ls\n"⟩, ⟨"ok"⟩] rfl rfl
    ⟨buildPassing, 1, 2, "success", rfl, by decide, Or.inl rfl, by decide, by decide⟩
    rfl (by decide) rfl

/-- C2 witness: the claim theorem applied at the spec's two-stage build. -/
theorem resolveBuildStageAndStep_spec_witness :
    resolveBuildStageAndStep buildAB "A" "y" = resolveSpec buildAB "A" "y"
    ∧ resolveBuildStageAndStep buildAB "A" "y" = (1, 2, "success", true)
    ∧ resolveBuildStageAndStep buildAB "B" "y" = (0, 0, "", false) :=
  resolveBuildStageAndStep_spec buildAB "A" "y"

/-- C5 witness: the claim theorem applied at the spec's verbatim-filter
example. -/
theorem curateStep_spec_witness :
    curateStep false ["+ls", "ok"] =
      ((["+ls", "ok"]).map trimTrailingNewlines).filter (fun l => false || !startsWithPlus l)
    ∧ curateStep true ["+ls", "ok"] = (["+ls", "ok"]).map trimTrailingNewlines
    ∧ curateStep false ["+ls", "ok"] = ["ok"]
    ∧ curateStep true ["+ls", "ok"] = ["+ls", "ok"] :=
  curateStep_spec false ["+ls", "ok"]

/-- C6 witness: the claim theorem applied at a concrete two-label comment
body. -/
theorem hasMarkdownLabels_spec_witness :
    hasMarkdownLabels "[//]: # (stage=build)\n[//]: # (step=lint)"
      [("stage", "build"), ("step", "lint")] =
      ([("stage", "build"), ("step", "lint")]).all
        (fun kv => lastRecorded "[//]: # (stage=build)\n[//]: # (step=lint)" kv.1 = some kv.2) :=
  hasMarkdownLabels_spec "[//]: # (stage=build)\n[//]: # (step=lint)"
    [("stage", "build"), ("step", "lint")]

/-- C10 witness: the claim theorem applied at a concrete label-free body. -/
theorem hasMarkdownLabels_empty_witness :
    hasMarkdownLabels "no metadata here" [] = true :=
  hasMarkdownLabels_empty "no metadata here"
